import Mathlib

/-!
Shallow embedding of the notify-api delivery engine
(src/notify_api/{models,repository,service,routes}.py).

Modelling choices:
- Database tables become lists inside a `DB` record; SQLAlchemy's
  `session.get` / `query().filter().all()` become `List.find?` / `List.filter`;
  a committed mutation of a fetched row becomes an id-directed replacement
  (`DB.updateLog`).
- Primary keys (integer ids and UUIDs) are modelled as `Nat`; fresh UUIDs for
  delivery-log rows come from a `next_log_id` counter.
- Timestamps are a logical clock (`Nat`); the `datetime.utcnow()` reads that
  happen inside one operation call are modelled as a single instant `now`
  passed to that operation.
- `BASE_DELAY_SECONDS` is the float `1.0` in the source; with the factor `1`
  every backoff value is integral, so it is modelled as the natural number 1.
- ORM audit columns (`created_at`, `updated_at`) and the opaque channel
  `config` blob play no role in the delivery logic and are omitted from the
  row records.
- `update_delivery_log_status` receives a `status: str` in the source, which
  the `Enum(DeliveryStatus)` column constrains to the four enumerated values;
  it is modelled as taking a `DeliveryStatus`.
-/

namespace NotifyApi

inductive ChannelType where
  | email
  | webhook
deriving DecidableEq

inductive DeliveryStatus where
  | pending
  | sent
  | failed
  | retried
deriving DecidableEq

structure Notification where
  id : Nat
  title : String
  message : String
  priority : String
  role : String
  is_read : Bool
deriving DecidableEq

structure DeliveryChannel where
  id : Nat
  name : String
  channel_type : ChannelType
  is_active : Bool
deriving DecidableEq

structure DeliveryLog where
  id : Nat
  notification_id : Nat
  channel_id : Nat
  status : DeliveryStatus
  attempt_count : Nat
  max_attempts : Nat
  last_attempt_at : Option Nat
  next_retry_at : Option Nat
  error_message : Option String
deriving DecidableEq

/-- The persistent store: the three tables plus a fresh-id counter for
delivery-log rows. -/
structure DB where
  notifications : List Notification
  channels : List DeliveryChannel
  logs : List DeliveryLog
  next_log_id : Nat
deriving DecidableEq

/-- repository.get_notification_by_id: `session.get(Notification, id)`. -/
def get_notification_by_id (db : DB) (notification_id : Nat) : Option Notification :=
  db.notifications.find? (fun n => n.id = notification_id)

/-- repository.list_active_channels: filter on `is_active == True`. -/
def list_active_channels (db : DB) : List DeliveryChannel :=
  db.channels.filter (fun c => c.is_active)

/-- repository.list_all_channels. -/
def list_all_channels (db : DB) : List DeliveryChannel :=
  db.channels

/-- repository.get_delivery_log_by_id: `session.get(DeliveryLog, id)`. -/
def get_delivery_log_by_id (db : DB) (log_id : Nat) : Option DeliveryLog :=
  db.logs.find? (fun l => l.id = log_id)

/-- Committing a mutation of a fetched `DeliveryLog` row: the row with the
same primary key is replaced by the mutated row. -/
def DB.updateLog (db : DB) (log : DeliveryLog) : DB :=
  { db with logs := db.logs.map (fun l => if l.id = log.id then log else l) }

/-- repository.create_delivery_log: inserts a fresh row and returns it. -/
def create_delivery_log (db : DB) (notification_id : Nat) (channel_id : Nat)
    (status : DeliveryStatus) (attempt_count : Nat) (max_attempts : Nat) :
    DeliveryLog × DB :=
  let log : DeliveryLog :=
    { id := db.next_log_id
      notification_id := notification_id
      channel_id := channel_id
      status := status
      attempt_count := attempt_count
      max_attempts := max_attempts
      last_attempt_at := none
      next_retry_at := none
      error_message := none }
  (log, { db with logs := db.logs ++ [log], next_log_id := db.next_log_id + 1 })

/-- repository.get_delivery_logs_by_notification. -/
def get_delivery_logs_by_notification (db : DB) (notification_id : Nat) :
    List DeliveryLog :=
  db.logs.filter (fun l => l.notification_id = notification_id)

/-- repository.update_delivery_log_status: sets `status`; sets
`error_message` only when one is supplied. -/
def update_delivery_log_status (db : DB) (log_id : Nat) (status : DeliveryStatus)
    (error_message : Option String) : Option DeliveryLog × DB :=
  match get_delivery_log_by_id db log_id with
  | none => (none, db)
  | some log =>
    let log1 := { log with status := status }
    let log2 :=
      match error_message with
      | none => log1
      | some msg => { log1 with error_message := some msg }
    (some log2, db.updateLog log2)

/-- repository.get_pending_retries: rows with `status == failed` and
`attempt_count < max_attempts`. -/
def get_pending_retries (db : DB) : List DeliveryLog :=
  db.logs.filter
    (fun l => l.status = DeliveryStatus.failed ∧ l.attempt_count < l.max_attempts)

/-- repository.increment_delivery_attempt: `attempt_count += 1`,
`last_attempt_at = utcnow()`, commit. -/
def increment_delivery_attempt (db : DB) (log_id : Nat) (now : Nat) :
    Option DeliveryLog × DB :=
  match get_delivery_log_by_id db log_id with
  | none => (none, db)
  | some log =>
    let log1 :=
      { log with attempt_count := log.attempt_count + 1, last_attempt_at := some now }
    (some log1, db.updateLog log1)

namespace DeliveryService

/-- service.DeliveryService.MAX_ATTEMPTS. -/
def MAX_ATTEMPTS : Nat := 3

/-- service.DeliveryService.BASE_DELAY_SECONDS (1.0 s in the source). -/
def BASE_DELAY_SECONDS : Nat := 1

/-- The `for channel in channels` loop body of service.DeliveryService.deliver,
as structural recursion over the channel list. -/
def deliverAux (notification_id : Nat) :
    List DeliveryChannel → DB → List DeliveryLog × DB
  | [], db => ([], db)
  | channel :: rest, db =>
    let p := create_delivery_log db notification_id channel.id
      DeliveryStatus.pending 0 MAX_ATTEMPTS
    let q := deliverAux notification_id rest p.2
    (p.1 :: q.1, q.2)

/-- service.DeliveryService.deliver: one pending log per active channel. -/
def deliver (db : DB) (notification_id : Nat) : List DeliveryLog × DB :=
  deliverAux notification_id (list_active_channels db) db

/-- service.DeliveryService.retry_delivery. `now` is the logical instant of
the call's clock reads. -/
def retry_delivery (db : DB) (log_id : Nat) (now : Nat) :
    Option DeliveryLog × DB :=
  match get_delivery_log_by_id db log_id with
  | none => (none, db)
  | some log =>
    if log.max_attempts ≤ log.attempt_count then
      (none, db)
    else
      match increment_delivery_attempt db log_id now with
      | (none, db1) => (none, db1)
      | (some log1, db1) =>
        let delay := BASE_DELAY_SECONDS * 2 ^ (log1.attempt_count - 1)
        let log2 :=
          { log1 with next_retry_at := some (now + delay),
                      status := DeliveryStatus.retried }
        (some log2, db1.updateLog log2)

/-- The one-step effect of a successful `retry_delivery` on the fetched row,
spelled out for use in theorem statements: post-increment count, both
timestamps stamped with the call instant, backoff computed from the
post-increment count (`2 ^ ((attempt_count + 1) - 1) = 2 ^ attempt_count`),
status `retried`. -/
def retryUpdate (now : Nat) (log : DeliveryLog) : DeliveryLog :=
  { log with
      attempt_count := log.attempt_count + 1
      last_attempt_at := some now
      next_retry_at := some (now + BASE_DELAY_SECONDS * 2 ^ log.attempt_count)
      status := DeliveryStatus.retried }

/-- One aggregated row of the `deliveries` list built by get_status. -/
structure DeliveryDetail where
  log_id : Nat
  channel_id : Nat
  channel_name : Option String
  channel_type : Option ChannelType
  status : DeliveryStatus
  attempt_count : Nat
  max_attempts : Nat
deriving DecidableEq

/-- The dict returned by service.DeliveryService.get_status. -/
structure DeliverySummary where
  notification_id : Nat
  total_channels : Nat
  delivered : Nat
  failed : Nat
  pending : Nat
  deliveries : List DeliveryDetail
deriving DecidableEq

/-- The counting loop of get_status: walks the log rows accumulating the
three counters and the detail list; `log.channel` relationship loading is a
lookup of the channel row by `channel_id`. -/
def statusCounts (db : DB) :
    List DeliveryLog → Nat × Nat × Nat × List DeliveryDetail
  | [] => (0, 0, 0, [])
  | log :: rest =>
    let r := statusCounts db rest
    let channel := db.channels.find? (fun c => c.id = log.channel_id)
    let detail : DeliveryDetail :=
      { log_id := log.id
        channel_id := log.channel_id
        channel_name := channel.map (fun c => c.name)
        channel_type := channel.map (fun c => c.channel_type)
        status := log.status
        attempt_count := log.attempt_count
        max_attempts := log.max_attempts }
    match log.status with
    | DeliveryStatus.sent => (r.1 + 1, r.2.1, r.2.2.1, detail :: r.2.2.2)
    | DeliveryStatus.failed => (r.1, r.2.1 + 1, r.2.2.1, detail :: r.2.2.2)
    | DeliveryStatus.pending => (r.1, r.2.1, r.2.2.1 + 1, detail :: r.2.2.2)
    | DeliveryStatus.retried => (r.1, r.2.1, r.2.2.1 + 1, detail :: r.2.2.2)

/-- service.DeliveryService.get_status: `None` when the notification is
missing, otherwise the aggregated summary. -/
def get_status (db : DB) (notification_id : Nat) : Option DeliverySummary :=
  match get_notification_by_id db notification_id with
  | none => none
  | some _ =>
    let logs := get_delivery_logs_by_notification db notification_id
    let r := statusCounts db logs
    some
      { notification_id := notification_id
        total_channels := r.2.2.2.length
        delivered := r.1
        failed := r.2.1
        pending := r.2.2.1
        deliveries := r.2.2.2 }

/-- The `for log in pending` loop of process_pending_retries, as structural
recursion over the selected rows; non-`None` retry results are collected. -/
def sweepAux (now : Nat) : List DeliveryLog → DB → List DeliveryLog × DB
  | [], db => ([], db)
  | log :: rest, db =>
    match retry_delivery db log.id now with
    | (some r, db1) =>
      let q := sweepAux now rest db1
      (r :: q.1, q.2)
    | (none, db1) => sweepAux now rest db1

/-- service.DeliveryService.process_pending_retries. -/
def process_pending_retries (db : DB) (now : Nat) : List DeliveryLog × DB :=
  sweepAux now (get_pending_retries db) db

end DeliveryService

/-- routes.trigger_delivery (POST /notifications/id/deliver): 404 (`none`)
when the notification is missing, otherwise runs deliver and reports the
number of created logs. -/
def trigger_delivery (db : DB) (notification_id : Nat) :
    Option (Nat × Nat) × DB :=
  match get_notification_by_id db notification_id with
  | none => (none, db)
  | some _ =>
    let r := DeliveryService.deliver db notification_id
    (some (notification_id, r.1.length), r.2)

/-- The invariant claimed by the spec's data model: no row's attempt count
exceeds its cap. -/
def LogsOK (db : DB) : Prop :=
  ∀ l ∈ db.logs, l.attempt_count ≤ l.max_attempts

/-- Retry eligibility of a row, as selected by get_pending_retries. -/
def eligible (l : DeliveryLog) : Prop :=
  l.status = DeliveryStatus.failed ∧ l.attempt_count < l.max_attempts

instance (l : DeliveryLog) : Decidable (eligible l) := by
  unfold eligible; infer_instance

instance (db : DB) : Decidable (LogsOK db) := by
  unfold LogsOK; infer_instance

/-! Concrete sample data used to instantiate the theorems below. -/

def exNotif : Notification :=
  { id := 1, title := "deploy done", message := "build 42 shipped",
    priority := "normal", role := "admin", is_read := false }

def exChannelA : DeliveryChannel :=
  { id := 10, name := "ops-mail", channel_type := ChannelType.email,
    is_active := true }

def exChannelB : DeliveryChannel :=
  { id := 11, name := "ops-hook", channel_type := ChannelType.webhook,
    is_active := false }

def exLogFailed : DeliveryLog :=
  { id := 0, notification_id := 1, channel_id := 10,
    status := DeliveryStatus.failed, attempt_count := 1, max_attempts := 3,
    last_attempt_at := some 5, next_retry_at := some 6,
    error_message := some "smtp timeout" }

def exLogExhausted : DeliveryLog :=
  { id := 1, notification_id := 1, channel_id := 10,
    status := DeliveryStatus.failed, attempt_count := 3, max_attempts := 3,
    last_attempt_at := some 8, next_retry_at := some 12,
    error_message := some "connection refused" }

def exLogSent : DeliveryLog :=
  { id := 2, notification_id := 1, channel_id := 10,
    status := DeliveryStatus.sent, attempt_count := 1, max_attempts := 3,
    last_attempt_at := some 4, next_retry_at := none, error_message := none }

def exDB : DB :=
  { notifications := [exNotif], channels := [exChannelA, exChannelB],
    logs := [exLogFailed, exLogExhausted, exLogSent], next_log_id := 3 }

def exLogRetried : DeliveryLog :=
  { id := 0, notification_id := 1, channel_id := 10,
    status := DeliveryStatus.retried, attempt_count := 1, max_attempts := 3,
    last_attempt_at := some 5, next_retry_at := some 6, error_message := none }

def exDBRetried : DB :=
  { notifications := [exNotif], channels := [exChannelA],
    logs := [exLogRetried], next_log_id := 1 }

/-! Basic lemmas about row lookup and id-directed replacement. -/

theorem get_log_id {db : DB} {lid : Nat} {log : DeliveryLog}
    (h : get_delivery_log_by_id db lid = some log) : log.id = lid := by
  unfold get_delivery_log_by_id at h
  simpa using List.find?_some h

theorem get_log_mem {db : DB} {lid : Nat} {log : DeliveryLog}
    (h : get_delivery_log_by_id db lid = some log) : log ∈ db.logs := by
  unfold get_delivery_log_by_id at h
  exact List.mem_of_find?_eq_some h

theorem updateLog_notifications (db : DB) (g : DeliveryLog) :
    (db.updateLog g).notifications = db.notifications := rfl

theorem updateLog_channels (db : DB) (g : DeliveryLog) :
    (db.updateLog g).channels = db.channels := rfl

theorem updateLog_next_log_id (db : DB) (g : DeliveryLog) :
    (db.updateLog g).next_log_id = db.next_log_id := rfl

theorem find?_replace_ne {logs : List DeliveryLog} {g : DeliveryLog} {i : Nat}
    (h : g.id ≠ i) :
    (logs.map (fun l => if l.id = g.id then g else l)).find?
        (fun l => l.id = i) =
      logs.find? (fun l => l.id = i) := by
  induction logs with
  | nil => rfl
  | cons a rest ih =>
    rw [List.map_cons]
    by_cases ha : a.id = g.id
    · have h2 : ¬ (a.id = i) := fun he => h (ha.symm.trans he)
      rw [if_pos ha, List.find?_cons_of_neg _ (by simpa using h),
        List.find?_cons_of_neg _ (by simpa using h2)]
      exact ih
    · by_cases hai : a.id = i
      · rw [if_neg ha, List.find?_cons_of_pos _ (by simpa using hai),
          List.find?_cons_of_pos _ (by simpa using hai)]
      · rw [if_neg ha, List.find?_cons_of_neg _ (by simpa using hai),
          List.find?_cons_of_neg _ (by simpa using hai)]
        exact ih

theorem find?_replace_self {logs : List DeliveryLog} {g : DeliveryLog} :
    (logs.map (fun l => if l.id = g.id then g else l)).find?
        (fun l => l.id = g.id) =
      (logs.find? (fun l => l.id = g.id)).map (fun _ => g) := by
  induction logs with
  | nil => rfl
  | cons a rest ih =>
    rw [List.map_cons]
    by_cases ha : a.id = g.id
    · rw [if_pos ha, List.find?_cons_of_pos _ (by simp),
        List.find?_cons_of_pos _ (by simpa using ha)]
      rfl
    · rw [if_neg ha, List.find?_cons_of_neg _ (by simpa using ha),
        List.find?_cons_of_neg _ (by simpa using ha)]
      exact ih

theorem get_updateLog_ne {db : DB} {g : DeliveryLog} {i : Nat} (h : g.id ≠ i) :
    get_delivery_log_by_id (db.updateLog g) i = get_delivery_log_by_id db i := by
  unfold get_delivery_log_by_id DB.updateLog
  exact find?_replace_ne h

theorem get_updateLog_self {db : DB} {g : DeliveryLog} :
    get_delivery_log_by_id (db.updateLog g) g.id =
      (get_delivery_log_by_id db g.id).map (fun _ => g) := by
  unfold get_delivery_log_by_id DB.updateLog
  exact find?_replace_self

theorem updateLog_updateLog {db : DB} {g1 g2 : DeliveryLog}
    (h : g2.id = g1.id) :
    (db.updateLog g1).updateLog g2 = db.updateLog g2 := by
  unfold DB.updateLog
  congr 1
  rw [List.map_map]
  apply List.map_congr_left
  intro l _
  by_cases hl : l.id = g1.id
  · simp [Function.comp_apply, hl, h]
  · simp [Function.comp_apply, hl, h]

theorem updateLog_map_id (db : DB) (g : DeliveryLog) :
    (db.updateLog g).logs.map (fun l => l.id) = db.logs.map (fun l => l.id) := by
  unfold DB.updateLog
  rw [List.map_map]
  apply List.map_congr_left
  intro l _
  by_cases hl : l.id = g.id
  · simp [Function.comp_apply, hl]
  · simp [Function.comp_apply, hl]

theorem find?_id_of_mem_nodup {logs : List DeliveryLog} {l : DeliveryLog}
    (hnd : (logs.map (fun x => x.id)).Nodup) (hm : l ∈ logs) :
    logs.find? (fun x => x.id = l.id) = some l := by
  induction logs with
  | nil => cases hm
  | cons a rest ih =>
    rw [List.map_cons, List.nodup_cons] at hnd
    rcases List.mem_cons.mp hm with rfl | hmem
    · simp [List.find?_cons]
    · have hne : ¬ (a.id = l.id) := by
        intro he
        exact hnd.1 (he.symm ▸ List.mem_map.mpr ⟨l, hmem, rfl⟩)
      simp only [List.find?_cons]
      simp [hne]
      exact ih hnd.2 hmem

theorem get_of_mem_nodup {db : DB} {l : DeliveryLog}
    (hnd : (db.logs.map (fun x => x.id)).Nodup) (hm : l ∈ db.logs) :
    get_delivery_log_by_id db l.id = some l := by
  unfold get_delivery_log_by_id
  exact find?_id_of_mem_nodup hnd hm

theorem mem_id_inj {logs : List DeliveryLog} {a b : DeliveryLog}
    (hnd : (logs.map (fun x => x.id)).Nodup) (ha : a ∈ logs) (hb : b ∈ logs)
    (h : a.id = b.id) : a = b := by
  have h1 := find?_id_of_mem_nodup hnd ha
  have h2 := find?_id_of_mem_nodup hnd hb
  rw [h] at h1
  exact Option.some.inj (h1.symm.trans h2)

/-! Characterization of retry_delivery by its three outcomes. -/

theorem retry_delivery_not_found {db : DB} {lid now : Nat}
    (h : get_delivery_log_by_id db lid = none) :
    DeliveryService.retry_delivery db lid now = (none, db) := by
  simp [DeliveryService.retry_delivery, h]

theorem retry_delivery_exhausted {db : DB} {lid now : Nat} {log : DeliveryLog}
    (h : get_delivery_log_by_id db lid = some log)
    (hmax : log.max_attempts ≤ log.attempt_count) :
    DeliveryService.retry_delivery db lid now = (none, db) := by
  simp [DeliveryService.retry_delivery, h, hmax]

theorem retry_delivery_success {db : DB} {lid now : Nat} {log : DeliveryLog}
    (h : get_delivery_log_by_id db lid = some log)
    (hlt : log.attempt_count < log.max_attempts) :
    DeliveryService.retry_delivery db lid now =
      (some (DeliveryService.retryUpdate now log),
        db.updateLog (DeliveryService.retryUpdate now log)) := by
  have hnot : ¬ log.max_attempts ≤ log.attempt_count := not_le.mpr hlt
  simp only [DeliveryService.retry_delivery, increment_delivery_attempt, h,
    if_neg hnot]
  refine Prod.ext rfl ?_
  exact updateLog_updateLog rfl

theorem retryUpdate_id (now : Nat) (log : DeliveryLog) :
    (DeliveryService.retryUpdate now log).id = log.id := rfl

theorem retry_delivery_cases (db : DB) (lid now : Nat) :
    DeliveryService.retry_delivery db lid now = (none, db) ∨
    ∃ log, get_delivery_log_by_id db lid = some log ∧
      log.attempt_count < log.max_attempts ∧
      DeliveryService.retry_delivery db lid now =
        (some (DeliveryService.retryUpdate now log),
          db.updateLog (DeliveryService.retryUpdate now log)) := by
  cases hg : get_delivery_log_by_id db lid with
  | none => exact Or.inl (retry_delivery_not_found hg)
  | some log =>
    by_cases hm : log.max_attempts ≤ log.attempt_count
    · exact Or.inl (retry_delivery_exhausted hg hm)
    · exact Or.inr
        ⟨log, rfl, not_le.mp hm, retry_delivery_success hg (not_le.mp hm)⟩

theorem retry_get_ne {db : DB} {lid now i : Nat} (h : lid ≠ i) :
    get_delivery_log_by_id (DeliveryService.retry_delivery db lid now).2 i =
      get_delivery_log_by_id db i := by
  rcases retry_delivery_cases db lid now with he | ⟨log, hg, hlt, he⟩
  · rw [he]
  · rw [he]
    exact get_updateLog_ne (by rw [retryUpdate_id, get_log_id hg]; exact h)

/-! Preservation of the attempt-cap invariant by each operation. -/

theorem mem_updateLog {db : DB} {g l : DeliveryLog}
    (h : l ∈ (db.updateLog g).logs) : l = g ∨ l ∈ db.logs := by
  unfold DB.updateLog at h
  rcases List.mem_map.mp h with ⟨x, hx, hfx⟩
  by_cases hxid : x.id = g.id
  · rw [if_pos hxid] at hfx
    exact Or.inl hfx.symm
  · rw [if_neg hxid] at hfx
    exact Or.inr (hfx ▸ hx)

theorem updateLog_logsOK {db : DB} {g : DeliveryLog} (h : LogsOK db)
    (hg : g.attempt_count ≤ g.max_attempts) : LogsOK (db.updateLog g) := by
  intro l hl
  rcases mem_updateLog hl with rfl | hm
  · exact hg
  · exact h l hm

theorem retry_logsOK {db : DB} (lid now : Nat) (h : LogsOK db) :
    LogsOK (DeliveryService.retry_delivery db lid now).2 := by
  rcases retry_delivery_cases db lid now with he | ⟨log, hg, hlt, he⟩
  · rw [he]
    exact h
  · rw [he]
    exact updateLog_logsOK h (Nat.succ_le_of_lt hlt)

theorem sweepAux_logsOK (now : Nat) (xs : List DeliveryLog) :
    ∀ db : DB, LogsOK db → LogsOK (DeliveryService.sweepAux now xs db).2 := by
  induction xs with
  | nil =>
    intro db h
    simpa [DeliveryService.sweepAux] using h
  | cons x rest ih =>
    intro db h
    rcases hr : DeliveryService.retry_delivery db x.id now with ⟨r, db1⟩
    have h1 : LogsOK db1 := by
      have h2 : LogsOK (DeliveryService.retry_delivery db x.id now).2 :=
        retry_logsOK x.id now h
      rw [hr] at h2
      exact h2
    cases r with
    | none => simpa [DeliveryService.sweepAux, hr] using ih db1 h1
    | some r => simpa [DeliveryService.sweepAux, hr] using ih db1 h1

theorem update_status_logsOK (db : DB) (lid : Nat) (st : DeliveryStatus)
    (em : Option String) (h : LogsOK db) :
    LogsOK (update_delivery_log_status db lid st em).2 := by
  cases hg : get_delivery_log_by_id db lid with
  | none => simpa [update_delivery_log_status, hg] using h
  | some log =>
    have hle := h log (get_log_mem hg)
    cases em with
    | none =>
      simp only [update_delivery_log_status, hg]
      exact updateLog_logsOK h hle
    | some msg =>
      simp only [update_delivery_log_status, hg]
      exact updateLog_logsOK h hle

theorem create_logsOK {db : DB} {nid cid : Nat} {st : DeliveryStatus}
    {ac ma : Nat} (h : LogsOK db) (hc : ac ≤ ma) :
    LogsOK (create_delivery_log db nid cid st ac ma).2 := by
  intro l hl
  simp only [create_delivery_log] at hl
  rcases List.mem_append.mp hl with hm | hm
  · exact h l hm
  · rcases List.mem_singleton.mp hm with rfl
    exact hc

theorem deliverAux_logsOK (nid : Nat) (chs : List DeliveryChannel) :
    ∀ db : DB, LogsOK db → LogsOK (DeliveryService.deliverAux nid chs db).2 := by
  induction chs with
  | nil =>
    intro db h
    simpa [DeliveryService.deliverAux] using h
  | cons c rest ih =>
    intro db h
    have h1 : LogsOK (create_delivery_log db nid c.id DeliveryStatus.pending 0
        DeliveryService.MAX_ATTEMPTS).2 := create_logsOK h (Nat.zero_le _)
    simpa [DeliveryService.deliverAux] using ih _ h1

theorem sweepAux_exhausted_frame (now : Nat) (xs : List DeliveryLog) :
    ∀ (db : DB) (i : Nat) (l : DeliveryLog),
      get_delivery_log_by_id db i = some l →
      l.attempt_count = l.max_attempts →
      get_delivery_log_by_id (DeliveryService.sweepAux now xs db).2 i = some l := by
  induction xs with
  | nil =>
    intro db i l h _
    simpa [DeliveryService.sweepAux] using h
  | cons x rest ih =>
    intro db i l h hmax
    by_cases hxi : x.id = i
    · have hre : DeliveryService.retry_delivery db x.id now = (none, db) := by
        have hgx : get_delivery_log_by_id db x.id = some l := by
          rw [hxi]
          exact h
        exact retry_delivery_exhausted hgx (le_of_eq hmax.symm)
      simp only [DeliveryService.sweepAux, hre]
      exact ih db i l h hmax
    · rcases hr : DeliveryService.retry_delivery db x.id now with ⟨r, db1⟩
      have hg1 : get_delivery_log_by_id db1 i = some l := by
        have h2 : get_delivery_log_by_id
            (DeliveryService.retry_delivery db x.id now).2 i =
            get_delivery_log_by_id db i := retry_get_ne hxi
        rw [hr] at h2
        rw [h2]
        exact h
      cases r with
      | none =>
        simp only [DeliveryService.sweepAux, hr]
        exact ih db1 i l hg1 hmax
      | some r =>
        simp only [DeliveryService.sweepAux, hr]
        exact ih db1 i l hg1 hmax

theorem deliverAux_spec (nid : Nat) (chs : List DeliveryChannel) :
    ∀ db : DB,
      (DeliveryService.deliverAux nid chs db).1.map (fun l => l.channel_id) =
        chs.map (fun c => c.id) ∧
      (∀ l ∈ (DeliveryService.deliverAux nid chs db).1,
        l.status = DeliveryStatus.pending ∧ l.attempt_count = 0 ∧
        l.max_attempts = DeliveryService.MAX_ATTEMPTS ∧
        l.notification_id = nid) ∧
      (DeliveryService.deliverAux nid chs db).2.logs =
        db.logs ++ (DeliveryService.deliverAux nid chs db).1 := by
  induction chs with
  | nil =>
    intro db
    refine ⟨rfl, ?_, by simp [DeliveryService.deliverAux]⟩
    intro l hl
    simp [DeliveryService.deliverAux] at hl
  | cons c rest ih =>
    intro db
    obtain ⟨ih1, ih2, ih3⟩ :=
      ih (create_delivery_log db nid c.id DeliveryStatus.pending 0
        DeliveryService.MAX_ATTEMPTS).2
    simp only [DeliveryService.deliverAux]
    refine ⟨?_, ?_, ?_⟩
    · simp only [List.map_cons, List.cons.injEq]
      exact ⟨rfl, ih1⟩
    · intro l hl
      rcases List.mem_cons.mp hl with rfl | hm
      · exact ⟨rfl, rfl, rfl, rfl⟩
      · exact ih2 l hm
    · rw [ih3]
      simp [create_delivery_log]

/-- Claim C1: starting from any store satisfying the attempt cap, every
operation (retry_delivery, the sweep, a status update, and fan-out creation)
preserves `attempt_count ≤ max_attempts` for every row, and a row whose
attempt count has reached its cap is never incremented again: retry_delivery
on it is a strict no-op, and after a sweep the row is still stored
unchanged. -/
theorem attempt_count_never_exceeds_max (db : DB) (lid now : Nat)
    (st : DeliveryStatus) (em : Option String) (nid : Nat) (h : LogsOK db) :
    LogsOK (DeliveryService.retry_delivery db lid now).2 ∧
    LogsOK (DeliveryService.process_pending_retries db now).2 ∧
    LogsOK (update_delivery_log_status db lid st em).2 ∧
    LogsOK (DeliveryService.deliver db nid).2 ∧
    (∀ log, get_delivery_log_by_id db lid = some log →
      log.attempt_count = log.max_attempts →
      DeliveryService.retry_delivery db lid now = (none, db)) ∧
    (∀ i l, get_delivery_log_by_id db i = some l →
      l.attempt_count = l.max_attempts →
      get_delivery_log_by_id
          (DeliveryService.process_pending_retries db now).2 i = some l) :=
  ⟨retry_logsOK lid now h, sweepAux_logsOK now _ db h,
    update_status_logsOK db lid st em h, deliverAux_logsOK nid _ db h,
    fun _ hg hm => retry_delivery_exhausted hg (le_of_eq hm.symm),
    fun i l hg hm => sweepAux_exhausted_frame now _ db i l hg hm⟩

theorem attempt_count_never_exceeds_max_witness :
    LogsOK exDB ∧
    LogsOK (DeliveryService.process_pending_retries exDB 20).2 ∧
    DeliveryService.retry_delivery exDB 1 20 = (none, exDB) := by
  have h : LogsOK exDB := by decide
  have h2 := attempt_count_never_exceeds_max exDB 1 20 DeliveryStatus.sent
    none 1 h
  exact ⟨h, h2.2.1, h2.2.2.2.2.1 exLogExhausted rfl rfl⟩

/-- Claim C2: on an existing row below its attempt cap, retry_delivery
returns the updated row and stores exactly it: attempt count incremented by
one, `last_attempt_at` set to the call instant, `next_retry_at` set to that
instant plus `BASE_DELAY_SECONDS * 2 ^ (attempt_count - 1)` computed from
the post-increment count, and status set to `retried`; with the default base
delay 1 this yields delays 1, 2, 4 on the first, second and third retry. -/
theorem retryOne_effect (db : DB) (lid now : Nat) (log : DeliveryLog)
    (hget : get_delivery_log_by_id db lid = some log)
    (hlt : log.attempt_count < log.max_attempts) :
    DeliveryService.retry_delivery db lid now =
      (some (DeliveryService.retryUpdate now log),
        db.updateLog (DeliveryService.retryUpdate now log)) ∧
    (DeliveryService.retryUpdate now log).attempt_count =
      log.attempt_count + 1 ∧
    (DeliveryService.retryUpdate now log).last_attempt_at = some now ∧
    (DeliveryService.retryUpdate now log).next_retry_at =
      some (now + DeliveryService.BASE_DELAY_SECONDS *
        2 ^ ((DeliveryService.retryUpdate now log).attempt_count - 1)) ∧
    (DeliveryService.retryUpdate now log).status = DeliveryStatus.retried ∧
    (log.attempt_count = 0 →
      (DeliveryService.retryUpdate now log).next_retry_at = some (now + 1)) ∧
    (log.attempt_count = 1 →
      (DeliveryService.retryUpdate now log).next_retry_at = some (now + 2)) ∧
    (log.attempt_count = 2 →
      (DeliveryService.retryUpdate now log).next_retry_at = some (now + 4)) := by
  refine ⟨retry_delivery_success hget hlt, rfl, rfl, rfl, rfl, ?_, ?_, ?_⟩ <;>
    intro hc <;>
    simp [DeliveryService.retryUpdate, DeliveryService.BASE_DELAY_SECONDS, hc]

theorem retryOne_effect_witness :
    exLogFailed.attempt_count < exLogFailed.max_attempts ∧
    DeliveryService.retry_delivery exDB 0 20 =
      (some (DeliveryService.retryUpdate 20 exLogFailed),
        exDB.updateLog (DeliveryService.retryUpdate 20 exLogFailed)) ∧
    (DeliveryService.retryUpdate 20 exLogFailed).attempt_count = 2 ∧
    (DeliveryService.retryUpdate 20 exLogFailed).next_retry_at = some 22 := by
  have h := retryOne_effect exDB 0 20 exLogFailed rfl (by decide)
  exact ⟨by decide, h.1, by decide, by simpa using h.2.2.2.2.2.2.1 rfl⟩

/-- Claim C3: on an existing row whose attempt count has reached its cap,
retry_delivery returns `none` (the exhausted no-op outcome) and leaves the
store entirely unchanged; in particular the row is still stored with every
field as before. -/
theorem retryOne_exhausted_no_mutation (db : DB) (lid now : Nat)
    (log : DeliveryLog) (hget : get_delivery_log_by_id db lid = some log)
    (hmax : log.attempt_count = log.max_attempts) :
    DeliveryService.retry_delivery db lid now = (none, db) ∧
    get_delivery_log_by_id (DeliveryService.retry_delivery db lid now).2 lid =
      some log := by
  have he : DeliveryService.retry_delivery db lid now = (none, db) :=
    retry_delivery_exhausted hget (le_of_eq hmax.symm)
  refine ⟨he, ?_⟩
  rw [he]
  exact hget

theorem retryOne_exhausted_no_mutation_witness :
    exLogExhausted.attempt_count = exLogExhausted.max_attempts ∧
    DeliveryService.retry_delivery exDB 1 20 = (none, exDB) :=
  ⟨rfl, (retryOne_exhausted_no_mutation exDB 1 20 exLogExhausted rfl rfl).1⟩

/-- Claim C4: the deliver endpoint fails with NotFound (`none`, the 404
path) when no notification with the given id exists, and then creates no
delivery-log rows: the store is returned unchanged. -/
theorem deliver_unknown_notification_not_found (db : DB) (nid : Nat)
    (h : get_notification_by_id db nid = none) :
    trigger_delivery db nid = (none, db) ∧
    (trigger_delivery db nid).2.logs = db.logs := by
  have he : trigger_delivery db nid = (none, db) := by
    simp [trigger_delivery, h]
  exact ⟨he, by rw [he]⟩

theorem deliver_unknown_notification_not_found_witness :
    get_notification_by_id exDB 99 = none ∧
    trigger_delivery exDB 99 = (none, exDB) :=
  ⟨rfl, (deliver_unknown_notification_not_found exDB 99 rfl).1⟩

/-- Claim C5: deliver creates exactly one delivery-log row per channel
active at call time (the created channel ids are exactly the active channel
ids, in order), each row pending with zero attempts and a cap of 3 and
pointing at the notification, returns exactly the created rows, persists
exactly them, and returns the empty list when no channel is active. -/
theorem deliver_fanout (db : DB) (nid : Nat) :
    (DeliveryService.deliver db nid).1.map (fun l => l.channel_id) =
      (list_active_channels db).map (fun c => c.id) ∧
    (∀ l ∈ (DeliveryService.deliver db nid).1,
      l.status = DeliveryStatus.pending ∧ l.attempt_count = 0 ∧
      l.max_attempts = 3 ∧ l.notification_id = nid) ∧
    (DeliveryService.deliver db nid).2.logs =
      db.logs ++ (DeliveryService.deliver db nid).1 ∧
    (list_active_channels db = [] → (DeliveryService.deliver db nid).1 = []) := by
  obtain ⟨h1, h2, h3⟩ := deliverAux_spec nid (list_active_channels db) db
  refine ⟨h1, h2, h3, fun he => ?_⟩
  have h4 : (list_active_channels db).map (fun c => c.id) = [] := by
    rw [he]
    rfl
  exact List.map_eq_nil_iff.mp (h1.trans h4)

theorem updateLog_logs (db : DB) (g : DeliveryLog) :
    (db.updateLog g).logs =
      db.logs.map (fun l => if l.id = g.id then g else l) := rfl

theorem sweepAux_spec (now : Nat) (xs : List DeliveryLog) :
    ∀ db : DB,
      (db.logs.map (fun l => l.id)).Nodup →
      (∀ x ∈ xs, x ∈ db.logs) →
      xs.Nodup →
      (∀ x ∈ xs, eligible x) →
      (DeliveryService.sweepAux now xs db).1 =
        xs.map (DeliveryService.retryUpdate now) ∧
      (DeliveryService.sweepAux now xs db).2.logs =
        db.logs.map
          (fun l => if l ∈ xs then DeliveryService.retryUpdate now l else l) ∧
      (DeliveryService.sweepAux now xs db).2.notifications =
        db.notifications ∧
      (DeliveryService.sweepAux now xs db).2.channels = db.channels ∧
      (DeliveryService.sweepAux now xs db).2.next_log_id = db.next_log_id := by
  induction xs with
  | nil =>
    intro db _ _ _ _
    exact ⟨rfl, by simp [DeliveryService.sweepAux], rfl, rfl, rfl⟩
  | cons x rest ih =>
    intro db hnd hsub hxnd hel
    have hxmem : x ∈ db.logs := hsub x (List.mem_cons_self x rest)
    have hget : get_delivery_log_by_id db x.id = some x :=
      get_of_mem_nodup hnd hxmem
    have hxel : eligible x := hel x (List.mem_cons_self x rest)
    have hxnotin : x ∉ rest := (List.nodup_cons.mp hxnd).1
    have hre : DeliveryService.retry_delivery db x.id now =
        (some (DeliveryService.retryUpdate now x),
          db.updateLog (DeliveryService.retryUpdate now x)) :=
      retry_delivery_success hget hxel.2
    have hnd1 : ((db.updateLog (DeliveryService.retryUpdate now x)).logs.map
        (fun l => l.id)).Nodup := by
      rw [updateLog_map_id]
      exact hnd
    have hne_of_mem : ∀ r ∈ rest, r.id ≠ x.id := by
      intro r hr he
      have hrx : r = x :=
        mem_id_inj hnd (hsub r (List.mem_cons_of_mem x hr)) hxmem he
      exact hxnotin (hrx ▸ hr)
    have hsub1 : ∀ r ∈ rest,
        r ∈ (db.updateLog (DeliveryService.retryUpdate now x)).logs := by
      intro r hr
      have hrne : r.id ≠ (DeliveryService.retryUpdate now x).id := by
        rw [retryUpdate_id]
        exact hne_of_mem r hr
      rw [updateLog_logs]
      exact List.mem_map.mpr
        ⟨r, hsub r (List.mem_cons_of_mem x hr), by rw [if_neg hrne]⟩
    obtain ⟨i1, i2, i3, i4, i5⟩ :=
      ih (db.updateLog (DeliveryService.retryUpdate now x)) hnd1 hsub1
        (List.nodup_cons.mp hxnd).2
        (fun r hr => hel r (List.mem_cons_of_mem x hr))
    simp only [DeliveryService.sweepAux, hre]
    refine ⟨?_, ?_, ?_, ?_, ?_⟩
    · rw [List.map_cons, i1]
    · rw [i2, updateLog_logs, List.map_map]
      apply List.map_congr_left
      intro l hl
      by_cases hlid : l.id = (DeliveryService.retryUpdate now x).id
      · have hlx : l = x :=
          mem_id_inj hnd hl hxmem (by rw [hlid, retryUpdate_id])
        subst hlx
        rw [Function.comp_apply, if_pos hlid]
        have hgnotin : DeliveryService.retryUpdate now l ∉ rest := by
          intro hmem
          have hf := (hel _ (List.mem_cons_of_mem l hmem)).1
          simp [DeliveryService.retryUpdate] at hf
        rw [if_neg hgnotin, if_pos (List.mem_cons_self l rest)]
      · rw [Function.comp_apply, if_neg hlid]
        have hlnex : l ≠ x := by
          intro he
          apply hlid
          rw [he, retryUpdate_id]
        by_cases hmem : l ∈ rest
        · rw [if_pos hmem, if_pos (List.mem_cons_of_mem x hmem)]
        · rw [if_neg hmem,
            if_neg (by simp [List.mem_cons, hlnex, hmem])]
    · rw [i3]
      exact updateLog_notifications db _
    · rw [i4]
      exact updateLog_channels db _
    · rw [i5]
      exact updateLog_next_log_id db _

theorem sweep_spec (db : DB) (now : Nat)
    (hnd : (db.logs.map (fun l => l.id)).Nodup) :
    (DeliveryService.process_pending_retries db now).1 =
      (get_pending_retries db).map (DeliveryService.retryUpdate now) ∧
    (DeliveryService.process_pending_retries db now).2.logs =
      db.logs.map (fun l => if l ∈ get_pending_retries db
        then DeliveryService.retryUpdate now l else l) := by
  have hsub : ∀ x ∈ get_pending_retries db, x ∈ db.logs := by
    intro x hx
    exact List.mem_of_mem_filter hx
  have hxnd : (get_pending_retries db).Nodup :=
    (List.Nodup.of_map _ hnd).filter _
  have hel : ∀ x ∈ get_pending_retries db, eligible x := by
    intro x hx
    have hx' : x ∈ db.logs.filter
        (fun l => decide (l.status = DeliveryStatus.failed ∧
          l.attempt_count < l.max_attempts)) := hx
    have h4 := List.of_mem_filter hx'
    simp only [decide_eq_true_eq] at h4
    exact h4
  obtain ⟨h1, h2, _, _, _⟩ :=
    sweepAux_spec now (get_pending_retries db) db hnd hsub hxnd hel
  exact ⟨h1, h2⟩

theorem deliver_fanout_witness :
    (DeliveryService.deliver exDB 1).1.map (fun l => l.channel_id) = [10] ∧
    ∀ l ∈ (DeliveryService.deliver exDB 1).1,
      l.status = DeliveryStatus.pending ∧ l.attempt_count = 0 ∧
      l.max_attempts = 3 ∧ l.notification_id = 1 := by
  have h := deliver_fanout exDB 1
  exact ⟨by rw [h.1]; decide, h.2.1⟩

/-- Claim C6: with distinct row ids, the sweep selects exactly the rows with
status `failed` and attempt count below the cap; each selected row is passed
through the retry and appears (updated) in the returned list, and every
non-eligible row (exhausted, sent, pending or retried) is not selected and
is still stored unmodified after the sweep. -/
theorem sweep_retries_exactly_eligible (db : DB) (now : Nat)
    (hnd : (db.logs.map (fun l => l.id)).Nodup) :
    get_pending_retries db =
      db.logs.filter
        (fun l => l.status = DeliveryStatus.failed ∧
          l.attempt_count < l.max_attempts) ∧
    (DeliveryService.process_pending_retries db now).1 =
      (get_pending_retries db).map (DeliveryService.retryUpdate now) ∧
    (∀ l ∈ db.logs, l.status = DeliveryStatus.failed →
      l.attempt_count < l.max_attempts →
      DeliveryService.retryUpdate now l ∈
        (DeliveryService.process_pending_retries db now).1) ∧
    (∀ l ∈ db.logs,
      ¬(l.status = DeliveryStatus.failed ∧
        l.attempt_count < l.max_attempts) →
      l ∈ (DeliveryService.process_pending_retries db now).2.logs) := by
  obtain ⟨h1, h2⟩ := sweep_spec db now hnd
  refine ⟨rfl, h1, ?_, ?_⟩
  · intro l hl hs hc
    rw [h1]
    exact List.mem_map.mpr
      ⟨l, List.mem_filter.mpr ⟨hl, decide_eq_true ⟨hs, hc⟩⟩, rfl⟩
  · intro l hl hne
    rw [h2]
    have hnotin : l ∉ get_pending_retries db := by
      intro hmem
      have hx' : l ∈ db.logs.filter
          (fun x => decide (x.status = DeliveryStatus.failed ∧
            x.attempt_count < x.max_attempts)) := hmem
      have h4 := List.of_mem_filter hx'
      simp only [decide_eq_true_eq] at h4
      exact hne h4
    exact List.mem_map.mpr ⟨l, hl, by rw [if_neg hnotin]⟩

theorem sweep_retries_exactly_eligible_witness :
    (exDB.logs.map (fun l => l.id)).Nodup ∧
    (DeliveryService.process_pending_retries exDB 20).1 =
      [DeliveryService.retryUpdate 20 exLogFailed] ∧
    exLogExhausted ∈ (DeliveryService.process_pending_retries exDB 20).2.logs := by
  have hnd : (exDB.logs.map (fun l => l.id)).Nodup := by decide
  have h := sweep_retries_exactly_eligible exDB 20 hnd
  refine ⟨hnd, ?_, ?_⟩
  · rw [h.2.1]
    rfl
  · exact h.2.2.2 exLogExhausted (by decide) (by decide)

/-- Claim C8: with distinct row ids, immediately re-running the sweep
selects nothing: every row retried by the first sweep now has status
`retried` (not `failed`), so the second sweep returns no rows and changes
nothing, and across the two back-to-back sweeps every row's attempt count
grows by at most one relative to the original row with its id. -/
theorem sweep_twice_no_double_increment (db : DB) (now1 now2 : Nat)
    (hnd : (db.logs.map (fun l => l.id)).Nodup) :
    get_pending_retries
      (DeliveryService.process_pending_retries db now1).2 = [] ∧
    DeliveryService.process_pending_retries
        (DeliveryService.process_pending_retries db now1).2 now2 =
      ([], (DeliveryService.process_pending_retries db now1).2) ∧
    (∀ l' ∈ (DeliveryService.process_pending_retries
        (DeliveryService.process_pending_retries db now1).2 now2).2.logs,
      ∃ l ∈ db.logs, l'.id = l.id ∧
        l'.attempt_count ≤ l.attempt_count + 1) := by
  obtain ⟨h1, h2⟩ := sweep_spec db now1 hnd
  have hempty : get_pending_retries
      (DeliveryService.process_pending_retries db now1).2 = [] := by
    unfold get_pending_retries
    rw [h2, List.filter_eq_nil_iff]
    intro a ha
    rcases List.mem_map.mp ha with ⟨l, hl, rfl⟩
    by_cases hmem : l ∈ get_pending_retries db
    · rw [if_pos hmem]
      simp [DeliveryService.retryUpdate]
    · rw [if_neg hmem]
      intro hpred
      apply hmem
      have hpred' : decide (l.status = DeliveryStatus.failed ∧
          l.attempt_count < l.max_attempts) = true := hpred
      exact List.mem_filter.mpr ⟨hl, hpred'⟩
  have hsecond : DeliveryService.process_pending_retries
      (DeliveryService.process_pending_retries db now1).2 now2 =
      ([], (DeliveryService.process_pending_retries db now1).2) := by
    unfold DeliveryService.process_pending_retries
    rw [show get_pending_retries
        (DeliveryService.sweepAux now1 (get_pending_retries db) db).2 = []
      from hempty]
    rfl
  refine ⟨hempty, hsecond, ?_⟩
  intro l' hl'
  rw [hsecond] at hl'
  rw [h2] at hl'
  rcases List.mem_map.mp hl' with ⟨l, hl, rfl⟩
  by_cases hmem : l ∈ get_pending_retries db
  · rw [if_pos hmem]
    exact ⟨l, hl, retryUpdate_id now1 l, le_refl _⟩
  · rw [if_neg hmem]
    exact ⟨l, hl, rfl, Nat.le_succ _⟩

theorem sweep_twice_no_double_increment_witness :
    (exDB.logs.map (fun l => l.id)).Nodup ∧
    get_pending_retries
      (DeliveryService.process_pending_retries exDB 20).2 = [] ∧
    DeliveryService.process_pending_retries
        (DeliveryService.process_pending_retries exDB 20).2 21 =
      ([], (DeliveryService.process_pending_retries exDB 20).2) := by
  have hnd : (exDB.logs.map (fun l => l.id)).Nodup := by decide
  have h := sweep_twice_no_double_increment exDB 20 21 hnd
  exact ⟨hnd, h.1, h.2.1⟩

theorem statusCounts_spec (db : DB) (ls : List DeliveryLog) :
    (DeliveryService.statusCounts db ls).1 =
      ls.countP (fun l => l.status = DeliveryStatus.sent) ∧
    (DeliveryService.statusCounts db ls).2.1 =
      ls.countP (fun l => l.status = DeliveryStatus.failed) ∧
    (DeliveryService.statusCounts db ls).2.2.1 =
      ls.countP (fun l => l.status = DeliveryStatus.pending ∨
        l.status = DeliveryStatus.retried) ∧
    (DeliveryService.statusCounts db ls).2.2.2.length = ls.length := by
  induction ls with
  | nil => exact ⟨rfl, rfl, rfl, rfl⟩
  | cons log rest ih =>
    obtain ⟨i1, i2, i3, i4⟩ := ih
    cases hs : log.status <;>
      simp [DeliveryService.statusCounts, hs, i1, i2, i3, i4,
        List.countP_cons]

/-- Claim C7: get_status fails (`none`, the 404 path) exactly when the
notification does not exist; otherwise the summary counts, over the
notification's delivery-log rows, the total number of rows, those sent
(`delivered`), those failed, and those pending or retried (`pending`), plus
one detail entry per row; with zero rows it reports zero totals and an
empty detail list rather than an error. -/
theorem summarize_spec (db : DB) (nid : Nat) :
    (DeliveryService.get_status db nid = none ↔
      get_notification_by_id db nid = none) ∧
    (∀ s, DeliveryService.get_status db nid = some s →
      s.total_channels = (get_delivery_logs_by_notification db nid).length ∧
      s.delivered = (get_delivery_logs_by_notification db nid).countP
        (fun l => l.status = DeliveryStatus.sent) ∧
      s.failed = (get_delivery_logs_by_notification db nid).countP
        (fun l => l.status = DeliveryStatus.failed) ∧
      s.pending = (get_delivery_logs_by_notification db nid).countP
        (fun l => l.status = DeliveryStatus.pending ∨
          l.status = DeliveryStatus.retried) ∧
      s.deliveries.length =
        (get_delivery_logs_by_notification db nid).length ∧
      (get_delivery_logs_by_notification db nid = [] →
        s.total_channels = 0 ∧ s.deliveries = [])) := by
  obtain ⟨c1, c2, c3, c4⟩ :=
    statusCounts_spec db (get_delivery_logs_by_notification db nid)
  constructor
  · cases hg : get_notification_by_id db nid with
    | none => simp [DeliveryService.get_status, hg]
    | some n => simp [DeliveryService.get_status, hg]
  · intro s hs
    cases hg : get_notification_by_id db nid with
    | none => simp [DeliveryService.get_status, hg] at hs
    | some n =>
      simp only [DeliveryService.get_status, hg] at hs
      cases Option.some.inj hs
      refine ⟨c4, c1, c2, c3, c4, fun he => ?_⟩
      constructor
      · rw [c4, he]
        rfl
      · have h5 : (DeliveryService.statusCounts db
            (get_delivery_logs_by_notification db nid)).2.2.2.length = 0 := by
          rw [c4, he]
          rfl
        exact List.length_eq_zero.mp h5

theorem summarize_spec_witness :
    DeliveryService.get_status exDB 99 = none ∧
    (DeliveryService.get_status exDB 1).map (fun s => s.total_channels) =
      some 3 ∧
    (DeliveryService.get_status exDB 1).map (fun s => s.delivered) = some 1 ∧
    (DeliveryService.get_status exDB 1).map (fun s => s.failed) = some 2 ∧
    (DeliveryService.get_status exDB 1).map (fun s => s.pending) = some 0 := by
  have h1 := (summarize_spec exDB 99).1.mpr rfl
  rcases hcase : DeliveryService.get_status exDB 1 with _ | s
  · exact absurd ((summarize_spec exDB 1).1.mp hcase) (by decide)
  · obtain ⟨t1, t2, t3, t4, _, _⟩ := (summarize_spec exDB 1).2 s hcase
    refine ⟨h1, ?_, ?_, ?_, ?_⟩ <;>
      simp only [Option.map_some', t1, t2, t3, t4] <;> decide

/-! The retry path never re-enters the pending status. -/

theorem retry_not_pending {db : DB} {lid now i : Nat} {l l' : DeliveryLog}
    (hget : get_delivery_log_by_id db i = some l)
    (hget' : get_delivery_log_by_id
      (DeliveryService.retry_delivery db lid now).2 i = some l')
    (hs : l.status ≠ DeliveryStatus.pending) :
    l'.status ≠ DeliveryStatus.pending := by
  rcases retry_delivery_cases db lid now with he | ⟨log, hg, hlt, he⟩
  · rw [he, hget] at hget'
    cases Option.some.inj hget'
    exact hs
  · rw [he] at hget'
    by_cases hi : (DeliveryService.retryUpdate now log).id = i
    · subst hi
      rw [get_updateLog_self] at hget'
      rcases Option.map_eq_some'.mp hget' with ⟨a, _, h2⟩
      rw [← h2]
      simp [DeliveryService.retryUpdate]
    · rw [get_updateLog_ne hi, hget] at hget'
      cases Option.some.inj hget'
      exact hs

theorem retry_get_isSome {db : DB} (lid now : Nat) {i : Nat}
    (h : (get_delivery_log_by_id db i).isSome) :
    (get_delivery_log_by_id
      (DeliveryService.retry_delivery db lid now).2 i).isSome := by
  rcases retry_delivery_cases db lid now with he | ⟨log, hg, hlt, he⟩
  · rw [he]
    exact h
  · rw [he]
    by_cases hi : (DeliveryService.retryUpdate now log).id = i
    · subst hi
      rw [get_updateLog_self]
      simpa using h
    · rw [get_updateLog_ne hi]
      exact h

theorem sweepAux_not_pending (now : Nat) (xs : List DeliveryLog) :
    ∀ (db : DB) (i : Nat) (l l' : DeliveryLog),
      get_delivery_log_by_id db i = some l →
      get_delivery_log_by_id (DeliveryService.sweepAux now xs db).2 i =
        some l' →
      l.status ≠ DeliveryStatus.pending →
      l'.status ≠ DeliveryStatus.pending := by
  induction xs with
  | nil =>
    intro db i l l' h h' hs
    simp only [DeliveryService.sweepAux] at h'
    rw [h] at h'
    cases Option.some.inj h'
    exact hs
  | cons x rest ih =>
    intro db i l l' h h' hs
    rcases hr : DeliveryService.retry_delivery db x.id now with ⟨r, db1⟩
    have hsome : (get_delivery_log_by_id db1 i).isSome := by
      have h2 : (get_delivery_log_by_id
          (DeliveryService.retry_delivery db x.id now).2 i).isSome :=
        retry_get_isSome x.id now (by rw [h]; rfl)
      rw [hr] at h2
      exact h2
    rcases Option.isSome_iff_exists.mp hsome with ⟨m, hm⟩
    have hmp : m.status ≠ DeliveryStatus.pending := by
      have hg' : get_delivery_log_by_id
          (DeliveryService.retry_delivery db x.id now).2 i = some m := by
        rw [hr]
        exact hm
      exact retry_not_pending h hg' hs
    cases r with
    | none =>
      simp only [DeliveryService.sweepAux, hr] at h'
      exact ih db1 i m l' hm h' hmp
    | some r =>
      simp only [DeliveryService.sweepAux, hr] at h'
      exact ih db1 i m l' hm h' hmp

/-- Claim C9 counterexample: the status-update operation accepts `pending`
and re-enters it on a row whose first attempt has already happened (attempt
count 1, status `retried`), so the claim that no core operation sequence
re-enters `pending` is false as stated: update_delivery_log_status with
status `pending` stores the row back in the `pending` state. -/
theorem status_update_reenters_pending :
    exLogRetried.attempt_count = 1 ∧
    exLogRetried.status = DeliveryStatus.retried ∧
    (update_delivery_log_status exDBRetried 0
        DeliveryStatus.pending none).1 =
      some { exLogRetried with status := DeliveryStatus.pending } ∧
    get_delivery_log_by_id
        (update_delivery_log_status exDBRetried 0
          DeliveryStatus.pending none).2 0 =
      some { exLogRetried with status := DeliveryStatus.pending } := by
  exact ⟨rfl, rfl, rfl, rfl⟩

/-- Claim C9 amended: once a row's status has left `pending`, retry_delivery
and the sweep never return it to `pending` (the only status they ever write
is `retried`); the status-update operation is excluded, since it is a plain
field write accepting any of the four enumerated statuses, including
`pending`. -/
theorem retry_sweep_never_reenter_pending (db : DB) (lid now i : Nat)
    (l : DeliveryLog)
    (hget : get_delivery_log_by_id db i = some l)
    (hs : l.status ≠ DeliveryStatus.pending) :
    (∀ l', get_delivery_log_by_id
        (DeliveryService.retry_delivery db lid now).2 i = some l' →
      l'.status ≠ DeliveryStatus.pending) ∧
    (∀ l', get_delivery_log_by_id
        (DeliveryService.process_pending_retries db now).2 i = some l' →
      l'.status ≠ DeliveryStatus.pending) :=
  ⟨fun _ h' => retry_not_pending hget h' hs,
    fun l' h' => sweepAux_not_pending now _ db i l l' hget h' hs⟩

theorem retry_sweep_never_reenter_pending_witness :
    exLogRetried.status ≠ DeliveryStatus.pending ∧
    (DeliveryService.retryUpdate 30 exLogRetried).status ≠
      DeliveryStatus.pending := by
  have h := retry_sweep_never_reenter_pending exDBRetried 0 30 0 exLogRetried
    rfl (by decide)
  exact ⟨by decide, h.1 (DeliveryService.retryUpdate 30 exLogRetried) rfl⟩

/-- Claim C10: updating a row's status with no error message supplied
changes only the status field: the stored row and the returned row keep the
previously stored errorMessage (it is never cleared) and every other field
unchanged. -/
theorem update_status_preserves_error (db : DB) (lid : Nat)
    (st : DeliveryStatus) (log : DeliveryLog)
    (hget : get_delivery_log_by_id db lid = some log) :
    update_delivery_log_status db lid st none =
      (some { log with status := st },
        db.updateLog { log with status := st }) ∧
    ({ log with status := st } : DeliveryLog).error_message =
      log.error_message ∧
    ({ log with status := st } : DeliveryLog).attempt_count =
      log.attempt_count ∧
    ({ log with status := st } : DeliveryLog).max_attempts =
      log.max_attempts ∧
    ({ log with status := st } : DeliveryLog).last_attempt_at =
      log.last_attempt_at ∧
    ({ log with status := st } : DeliveryLog).next_retry_at =
      log.next_retry_at := by
  refine ⟨?_, rfl, rfl, rfl, rfl, rfl⟩
  simp [update_delivery_log_status, hget]

theorem update_status_preserves_error_witness :
    get_delivery_log_by_id exDB 0 = some exLogFailed ∧
    update_delivery_log_status exDB 0 DeliveryStatus.sent none =
      (some { exLogFailed with status := DeliveryStatus.sent },
        exDB.updateLog { exLogFailed with status := DeliveryStatus.sent }) ∧
    ({ exLogFailed with status := DeliveryStatus.sent } :
      DeliveryLog).error_message = some "smtp timeout" :=
  ⟨rfl,
    (update_status_preserves_error exDB 0 DeliveryStatus.sent exLogFailed
      rfl).1,
    rfl⟩

end NotifyApi
